import Mathlib

/-!
Verification of the dice-resolution and combat-arbitration engine of the
DnDStyleBattleArena repository (src/src/Dice.py, src/src/Attacks.py,
src/src/Arena.py, src/Fighters.py, src/Arena.py).

Randomness is modelled by explicit seed parameters: a call to
random.randint(1, n) with seed s yields 1 + s % n, which ranges over exactly
the values randint can produce.  Python object identity is modelled by an
explicit oid field on dice and an aid field on attacks (dataclass equality
for Die ignores it, matching the Python comparison fields).  Rational
numbers model Python floats; where a claim hinges on IEEE-754 double
rounding (the fighter transition weights), binary64 round-to-nearest-even
is implemented exactly on rationals.
-/

namespace DnD

/-! ### Python list.remove: drop the first element satisfying a predicate -/

/-- Python list.remove(v) deletes the first element equal to v; generalised to
a Boolean predicate (callers instantiate it with the relevant equality). -/
def pyRemove (p : α → Bool) : List α → List α
  | [] => []
  | x :: xs => if p x then xs else x :: pyRemove p xs

theorem pyRemove_eq_eraseIdx (p : α → Bool) (l : List α) :
    pyRemove p l = l.eraseIdx (l.findIdx p) := by
  induction l with
  | nil => rfl
  | cons a l ih =>
    by_cases h : p a
    · simp [pyRemove, h, List.findIdx_cons]
    · simp [pyRemove, h, List.findIdx_cons, List.eraseIdx, ih]

/-- Removing one element whose f-image is m lowers the mapped sum by exactly m. -/
theorem pyRemove_map_sum (f : α → Nat) (p : α → Bool) (m : Nat) (l : List α)
    (hval : ∀ x, p x = true → f x = m) (hex : ∃ x ∈ l, p x = true) :
    ((pyRemove p l).map f).sum + m = (l.map f).sum := by
  induction l with
  | nil => rcases hex with ⟨x, hx, _⟩; cases hx
  | cons a l ih =>
    by_cases h : p a
    · simp [pyRemove, h, hval a h, Nat.add_comm, Nat.add_left_comm]
    · have hex' : ∃ x ∈ l, p x = true := by
        rcases hex with ⟨x, hx, hpx⟩
        rcases List.mem_cons.mp hx with rfl | hx'
        · exact absurd hpx (by simp [h])
        · exact ⟨x, hx', hpx⟩
      simp only [pyRemove]
      rw [if_neg h]
      simp only [List.map_cons, List.sum_cons]
      rw [Nat.add_assoc, ih hex']

/-! ### Python min / max over a nonempty list (value level) -/

/-- Python min over a list of ints (0 on the empty list, which Python rejects). -/
def listMin : List Nat → Nat
  | [] => 0
  | x :: xs => xs.foldl Nat.min x

/-- Python max over a list of ints (0 on the empty list, which Python rejects). -/
def listMax : List Nat → Nat
  | [] => 0
  | x :: xs => xs.foldl Nat.max x

theorem foldl_min_mem (xs : List Nat) (x : Nat) :
    xs.foldl Nat.min x ∈ x :: xs := by
  induction xs generalizing x with
  | nil => simp
  | cons y ys ih =>
    have h := ih (Nat.min x y)
    rcases List.mem_cons.mp h with h' | h'
    · rcases Nat.min_eq_left (le_refl x) ▸ Nat.le_total x y with hxy | hxy
      · rw [List.foldl_cons, h']
        rcases Nat.le_total x y with hle | hle
        · simp [Nat.min_eq_left hle]
        · simp [Nat.min_eq_right hle]
      · rw [List.foldl_cons, h']
        rcases Nat.le_total x y with hle | hle
        · simp [Nat.min_eq_left hle]
        · simp [Nat.min_eq_right hle]
    · simp [List.foldl_cons]
      right; right
      exact h'

theorem foldl_max_mem (xs : List Nat) (x : Nat) :
    xs.foldl Nat.max x ∈ x :: xs := by
  induction xs generalizing x with
  | nil => simp
  | cons y ys ih =>
    have h := ih (Nat.max x y)
    rcases List.mem_cons.mp h with h' | h'
    · rw [List.foldl_cons, h']
      rcases Nat.le_total x y with hle | hle
      · simp [Nat.max_eq_right hle]
      · simp [Nat.max_eq_left hle]
    · simp [List.foldl_cons]
      right; right
      exact h'

theorem listMin_mem (l : List Nat) (h : l ≠ []) : listMin l ∈ l := by
  match l with
  | x :: xs => exact foldl_min_mem xs x

theorem listMax_mem (l : List Nat) (h : l ≠ []) : listMax l ∈ l := by
  match l with
  | x :: xs => exact foldl_max_mem xs x

/-! ### Die (src/src/Dice.py): frozen dataclass, the concrete subclasses -/

/-- The closed set of Die subclasses defined in src/src/Dice.py. -/
inductive DieClass
  | four | six | eight | ten | twelve | twenty | hundred
deriving DecidableEq

/-- face_count default of each subclass. -/
def DieClass.faceCount : DieClass → Nat
  | .four => 4
  | .six => 6
  | .eight => 8
  | .ten => 10
  | .twelve => 12
  | .twenty => 20
  | .hundred => 100

theorem DieClass.faceCount_pos (c : DieClass) : 0 < c.faceCount := by
  cases c <;> decide

/-- A Die object.  cls is the Python class (which fixes face_count), oid
models Python object identity (not a dataclass field), rolled is the
mutable comparison field. -/
structure Die where
  cls : DieClass
  oid : Nat
  rolled : Nat
deriving DecidableEq

/-- Constructing a die: rolled defaults to 0. -/
def Die.fresh (c : DieClass) (oid : Nat) : Die := ⟨c, oid, 0⟩

/-- Die.roll: random.randint(1, face_count) with seed s is modelled as
1 + s % face_count, which overwrites rolled.  The Python method returns the
updated rolled field, i.e. (d.roll s).rolled. -/
def Die.roll (d : Die) (s : Nat) : Die :=
  { d with rolled := 1 + s % d.cls.faceCount }

/-- dataclass __eq__ of the frozen Die dataclass: NotImplemented (hence
False) unless the classes coincide, otherwise comparison of the single
compare field rolled.  Object identity (oid) does not participate. -/
def Die.pyEq (a b : Die) : Bool :=
  a.cls == b.cls && a.rolled == b.rolled

/-- dataclass order=True __lt__: defined only between dice of the same
class (TypeError between distinct classes, modelled as none), otherwise
comparison of rolled. -/
def Die.pyLt (a b : Die) : Option Bool :=
  if a.cls == b.cls then some (decide (a.rolled < b.rolled)) else none

theorem Die.pyEq_refl (d : Die) : Die.pyEq d d = true := by
  simp [Die.pyEq]

/-! ### Dice container (src/src/Dice.py class Dice) -/

/-- Error taxonomy of the dice layer (spec section 7); the code raises
IndexError from previous_roll, called InsufficientHistory in the spec. -/
inductive DiceError
  | insufficientHistory
deriving DecidableEq

/-- class Dice: a pool of count dice of one type plus a roll history of
snapshots, oldest first; __post_init__ builds the dice (with oids
0..count-1 modelling the fresh objects) and seeds the history with the
initial unrolled snapshot. -/
structure Dice where
  die_type : DieClass
  count : Nat
  dice : List Die
  roll_history : List (List Die)
deriving DecidableEq

/-- Dice(die_type=t, count=n) followed by __post_init__. -/
def Dice.make (t : DieClass) (count : Nat) : Dice :=
  let ds := (List.range count).map (fun i => Die.fresh t i)
  ⟨t, count, ds, [ds]⟩

/-- roll_history[-1]. -/
def Dice.current_roll (d : Dice) : List Die :=
  d.roll_history.getD (d.roll_history.length - 1) []

/-- previous_roll: roll_history[-2] when more than one snapshot exists,
else the IndexError documented as InsufficientHistory. -/
def Dice.previous_roll (d : Dice) : Except DiceError (List Die) :=
  if d.roll_history.length > 1 then
    .ok (d.roll_history.getD (d.roll_history.length - 2) [])
  else
    .error .insufficientHistory

/-- sum(dice) via Die.__add__/__radd__ adds the rolled values. -/
def diceSum (l : List Die) : Nat := (l.map Die.rolled).sum

/-- current_total. -/
def Dice.current_total (d : Dice) : Nat := diceSum d.current_roll

/-- previous_total. -/
def Dice.previous_total (d : Dice) : Except DiceError Nat :=
  d.previous_roll.map diceSum

/-- Dice.roll: roll every member die (one seed per die, zipped in order),
then append a deep copy of the dice as a new snapshot.  The Python method
returns current_roll. -/
def Dice.roll (d : Dice) (ss : List Nat) : Dice :=
  let ds := List.zipWith Die.roll d.dice ss
  { d with dice := ds, roll_history := d.roll_history ++ [ds] }

/-! ### RollManager (src/src/Dice.py): operations on its _dice_list -/

/-- Class of the first die of the list; RollManager raises on an empty
list before reading it, so the default for [] is never exercised by the
procedures below under their nonemptiness hypotheses. -/
def headCls : List Die → DieClass
  | [] => .six
  | d :: _ => d.cls

/-- min(self._dice_list, key=lambda d: d.rolled): the first die attaining
the minimal rolled value (none on the empty list, where Python raises). -/
def pyMinByRolled : List Die → Option Die
  | [] => none
  | d :: ds => some (ds.foldl (fun acc x => if x.rolled < acc.rolled then x else acc) d)

/-- max(self._dice_list, key=lambda d: d.rolled): first die attaining the
maximal rolled value. -/
def pyMaxByRolled : List Die → Option Die
  | [] => none
  | d :: ds => some (ds.foldl (fun acc x => if acc.rolled < x.rolled then x else acc) d)

namespace RollManager

/-- add_die_to_roll: append one fresh die of the type of the first die. -/
def add_die_to_roll (ds : List Die) (oid : Nat) : List Die :=
  ds ++ [Die.fresh (headCls ds) oid]

/-- roll_dice: roll every managed die (seeds zipped in order). -/
def roll_dice (ds : List Die) (ss : List Nat) : List Die :=
  List.zipWith Die.roll ds ss

/-- get_roll_total: sum of the rolled values. -/
def get_roll_total (ds : List Die) : Nat := (ds.map Die.rolled).sum

/-- remove_lowest_roll: list.remove of min(..., key=rolled); list.remove
deletes the first die dataclass-equal (pyEq) to the minimum. -/
def remove_lowest_roll (ds : List Die) : List Die :=
  match pyMinByRolled ds with
  | none => ds
  | some lowest => pyRemove (fun d => d.pyEq lowest) ds

/-- remove_highest_roll: mirror of remove_lowest_roll. -/
def remove_highest_roll (ds : List Die) : List Die :=
  match pyMaxByRolled ds with
  | none => ds
  | some highest => pyRemove (fun d => d.pyEq highest) ds

/-- roll_with_advantage: add one die, roll all, remove the lowest roll,
total the remainder. -/
def roll_with_advantage (ds : List Die) (oid : Nat) (ss : List Nat) : Nat :=
  get_roll_total (remove_lowest_roll (roll_dice (add_die_to_roll ds oid) ss))

/-- roll_with_disadvantage: add one die, roll all, remove the highest
roll, total the remainder. -/
def roll_with_disadvantage (ds : List Die) (oid : Nat) (ss : List Nat) : Nat :=
  get_roll_total (remove_highest_roll (roll_dice (add_die_to_roll ds oid) ss))

end RollManager

/-! ### Lemmas about the min/max selection and removal steps -/

theorem pyMinByRolled_mem (ds : List Die) (lowest : Die)
    (h : pyMinByRolled ds = some lowest) : lowest ∈ ds := by
  match ds with
  | [] => cases h
  | d :: ds =>
    simp only [pyMinByRolled, Option.some.injEq] at h
    subst h
    have : ∀ (l : List Die) (a : Die),
        l.foldl (fun acc x => if x.rolled < acc.rolled then x else acc) a ∈ a :: l := by
      intro l
      induction l with
      | nil => intro a; simp
      | cons y ys ih =>
        intro a
        simp only [List.foldl_cons]
        have h' := ih (if y.rolled < a.rolled then y else a)
        rcases List.mem_cons.mp h' with h'' | h''
        · rw [h'']
          by_cases hy : y.rolled < a.rolled <;> simp [hy]
        · simp [List.mem_cons.mpr (Or.inr (List.mem_cons.mpr (Or.inr h'')))]
    exact this ds d

theorem pyMaxByRolled_mem (ds : List Die) (highest : Die)
    (h : pyMaxByRolled ds = some highest) : highest ∈ ds := by
  match ds with
  | [] => cases h
  | d :: ds =>
    simp only [pyMaxByRolled, Option.some.injEq] at h
    subst h
    have : ∀ (l : List Die) (a : Die),
        l.foldl (fun acc x => if acc.rolled < x.rolled then x else acc) a ∈ a :: l := by
      intro l
      induction l with
      | nil => intro a; simp
      | cons y ys ih =>
        intro a
        simp only [List.foldl_cons]
        have h' := ih (if a.rolled < y.rolled then y else a)
        rcases List.mem_cons.mp h' with h'' | h''
        · rw [h'']
          by_cases hy : a.rolled < y.rolled <;> simp [hy]
        · simp [List.mem_cons.mpr (Or.inr (List.mem_cons.mpr (Or.inr h'')))]
    exact this ds d

theorem pyMinByRolled_rolled (ds : List Die) (lowest : Die)
    (h : pyMinByRolled ds = some lowest) :
    lowest.rolled = listMin (ds.map Die.rolled) := by
  match ds with
  | [] => cases h
  | d :: ds =>
    simp only [pyMinByRolled, Option.some.injEq] at h
    subst h
    simp only [List.map_cons, listMin, List.foldl_map]
    induction ds generalizing d with
    | nil => rfl
    | cons y ys ih =>
      simp only [List.foldl_cons]
      rw [ih]
      congr 1
      by_cases hy : y.rolled < d.rolled
      · simp [hy, Nat.min_eq_right (Nat.le_of_lt hy)]
      · simp [hy, Nat.min_eq_left (Nat.le_of_not_lt hy)]

theorem pyMaxByRolled_rolled (ds : List Die) (highest : Die)
    (h : pyMaxByRolled ds = some highest) :
    highest.rolled = listMax (ds.map Die.rolled) := by
  match ds with
  | [] => cases h
  | d :: ds =>
    simp only [pyMaxByRolled, Option.some.injEq] at h
    subst h
    simp only [List.map_cons, listMax, List.foldl_map]
    induction ds generalizing d with
    | nil => rfl
    | cons y ys ih =>
      simp only [List.foldl_cons]
      rw [ih]
      congr 1
      by_cases hy : d.rolled < y.rolled
      · simp [hy, Nat.max_eq_right (Nat.le_of_lt hy)]
      · simp [hy, Nat.max_eq_left (Nat.le_of_not_lt hy)]

/-- The rolled-value total of remove_lowest_roll: exactly the minimum is
taken out of the sum. -/
theorem remove_lowest_roll_sum (ds : List Die) (h : ds ≠ []) :
    ((RollManager.remove_lowest_roll ds).map Die.rolled).sum
      + listMin (ds.map Die.rolled) = (ds.map Die.rolled).sum := by
  match hm : pyMinByRolled ds with
  | none => cases ds with
    | nil => exact absurd rfl h
    | cons d ds => simp [pyMinByRolled] at hm
  | some lowest =>
    have hmem : lowest ∈ ds := pyMinByRolled_mem ds lowest hm
    have hroll : lowest.rolled = listMin (ds.map Die.rolled) :=
      pyMinByRolled_rolled ds lowest hm
    simp only [RollManager.remove_lowest_roll, hm]
    refine pyRemove_map_sum Die.rolled (fun d => d.pyEq lowest)
      (listMin (ds.map Die.rolled)) ds ?_ ?_
    · intro x hx
      simp only [Die.pyEq, Bool.and_eq_true, beq_iff_eq] at hx
      rw [hx.2, hroll]
    · exact ⟨lowest, hmem, Die.pyEq_refl lowest⟩

/-- The rolled-value total of remove_highest_roll: exactly the maximum is
taken out of the sum. -/
theorem remove_highest_roll_sum (ds : List Die) (h : ds ≠ []) :
    ((RollManager.remove_highest_roll ds).map Die.rolled).sum
      + listMax (ds.map Die.rolled) = (ds.map Die.rolled).sum := by
  match hm : pyMaxByRolled ds with
  | none => cases ds with
    | nil => exact absurd rfl h
    | cons d ds => simp [pyMaxByRolled] at hm
  | some highest =>
    have hmem : highest ∈ ds := pyMaxByRolled_mem ds highest hm
    have hroll : highest.rolled = listMax (ds.map Die.rolled) :=
      pyMaxByRolled_rolled ds highest hm
    simp only [RollManager.remove_highest_roll, hm]
    refine pyRemove_map_sum Die.rolled (fun d => d.pyEq highest)
      (listMax (ds.map Die.rolled)) ds ?_ ?_
    · intro x hx
      simp only [Die.pyEq, Bool.and_eq_true, beq_iff_eq] at hx
      rw [hx.2, hroll]
    · exact ⟨highest, hmem, Die.pyEq_refl highest⟩

/-! ### Attack (src/src/Attacks.py) -/

/-- An Attack: a name and a list of dice of one kind.  aid models Python
object identity (class Attack defines no __eq__, so the in-operator on a
fighter's attack list compares identity). -/
structure Attack where
  aid : Nat
  name : String
  dice : List Die
deriving DecidableEq

namespace Attack

/-- dice_with_extra_die: self.dice + [die_type()] — a NEW list holding the
attack's dice plus one fresh die of the type of the first die.  oid is the
identity of the freshly constructed extra die. -/
def dice_with_extra_die (a : Attack) (oid : Nat) : List Die :=
  a.dice ++ [Die.fresh (headCls a.dice) oid]

/-- check_advantage: compute min(rolls) and list.remove the first
occurrence of that value. -/
def check_advantage (rolls : List Nat) : List Nat :=
  pyRemove (fun x => x == listMin rolls) rolls

/-- check_disadvantage: compute max(rolls) and list.remove the first
occurrence of that value. -/
def check_disadvantage (rolls : List Nat) : List Nat :=
  pyRemove (fun x => x == listMax rolls) rolls

/-- roll_damage: roll each die in self.dice (seeds zipped in order) and
return the sum of the results; the dice objects are shared with the
attack, so their rolled fields update (second component). -/
def roll_damage (a : Attack) (ss : List Nat) : Nat × Attack :=
  let ds := List.zipWith Die.roll a.dice ss
  ((ds.map Die.rolled).sum, { a with dice := ds })

/-- roll_damage_with_advantage: roll the k+1 dice of dice_with_extra_die
(the first k of which are the attack's own die objects), drop the first
minimal value, return the sum of the rest.  The attack afterwards still
holds its own k (re-rolled) dice — the extra die existed only in the
transient list. -/
def roll_damage_with_advantage (a : Attack) (oid : Nat) (ss : List Nat) :
    Nat × Attack :=
  let work := List.zipWith Die.roll (a.dice_with_extra_die oid) ss
  let results := check_advantage (work.map Die.rolled)
  (results.sum, { a with dice := work.take a.dice.length })

/-- roll_damage_with_disadvantage: mirror, dropping the first maximal
value. -/
def roll_damage_with_disadvantage (a : Attack) (oid : Nat) (ss : List Nat) :
    Nat × Attack :=
  let work := List.zipWith Die.roll (a.dice_with_extra_die oid) ss
  let results := check_disadvantage (work.map Die.rolled)
  (results.sum, { a with dice := work.take a.dice.length })

end Attack

/-- The total of check_advantage is the total of the inputs minus their
minimum. -/
theorem check_advantage_sum (rolls : List Nat) (h : rolls ≠ []) :
    (Attack.check_advantage rolls).sum + listMin rolls = rolls.sum := by
  have := pyRemove_map_sum (fun x => x) (fun x => x == listMin rolls)
    (listMin rolls) rolls (fun x hx => by simpa using hx)
    ⟨listMin rolls, listMin_mem rolls h, by simp⟩
  simpa [Attack.check_advantage] using this

/-- The total of check_disadvantage is the total of the inputs minus their
maximum. -/
theorem check_disadvantage_sum (rolls : List Nat) (h : rolls ≠ []) :
    (Attack.check_disadvantage rolls).sum + listMax rolls = rolls.sum := by
  have := pyRemove_map_sum (fun x => x) (fun x => x == listMax rolls)
    (listMax rolls) rolls (fun x hx => by simpa using hx)
    ⟨listMax rolls, listMax_mem rolls h, by simp⟩
  simpa [Attack.check_disadvantage] using this

/-! ### IEEE-754 binary64 rounding, exactly on rationals

Python floats are binary64 values; every arithmetic operation rounds the
exact result to the nearest representable double (ties to even).  The
fighter transition weights stay far inside the normal range, so rounding a
positive rational to 53 significant bits models the Python computation
exactly. -/

/-- Round a rational to the nearest integer, ties to even. -/
def roundNearestEven (q : ℚ) : ℤ :=
  let n := ⌊q⌋
  let frac := q - (n : ℚ)
  if frac < 1/2 then n
  else if 1/2 < frac then n + 1
  else if n % 2 = 0 then n else n + 1

/-- Floor base-2 logarithm of a positive rational, valid on [2^-60, 2^60]
(the whole range arising from the weight computation). -/
def ilog2 (q : ℚ) : ℤ :=
  (((List.range 121).filter
      (fun k => decide ((2:ℚ) ^ ((k : ℤ) - 60) ≤ q))).length : ℤ) - 61

/-- Nearest binary64 value of a positive rational in the normal range:
scale to a 53-bit significand, round to nearest even, scale back. -/
def flPos (q : ℚ) : ℚ :=
  let e : ℤ := ilog2 q - 52
  (roundNearestEven (q / 2 ^ e) : ℚ) * 2 ^ e

/-- Nearest binary64 value of a rational (normal range). -/
def fl (q : ℚ) : ℚ :=
  if 0 < q then flPos q else if q < 0 then -flPos (-q) else 0

/-! ### Fighter (src/Fighters.py) -/

/-- FighterAwareness = Enum("FighterAwareness", [FOCUSED, PRESENT,
DISTRACTED]). -/
inductive FighterAwareness
  | FOCUSED | PRESENT | DISTRACTED
deriving DecidableEq

/-- A Fighter.  The three chance fields hold the exact values of the
Python doubles computed in __init__. -/
structure Fighter where
  name : String
  hp : Int
  attacks : List Attack
  d20 : Die
  awareness : FighterAwareness
  focused_chance : ℚ
  present_chance : ℚ
  distracted_chance : ℚ
deriving DecidableEq

namespace Fighter

/-- Fighter.__init__(name, hp): no attacks, a fresh d20, PRESENT
awareness; the distracted and focused chances are randrange(1,4)/10 —
float division of the integer draws ddraw, fdraw in {1,2,3} by 10 — and
the present chance is the double 1.0 - (distracted + focused). -/
def make (name : String) (hp : Int) (d20oid ddraw fdraw : Nat) : Fighter :=
  let dch := fl ((ddraw : ℚ) / 10)
  let fch := fl ((fdraw : ℚ) / 10)
  { name := name, hp := hp, attacks := [], d20 := Die.fresh .twenty d20oid,
    awareness := .PRESENT,
    focused_chance := fch,
    present_chance := fl (1 - fl (dch + fch)),
    distracted_chance := dch }

/-- roll_d20: roll the fighter's d20 and return the value (the d20 object
mutates). -/
def roll_d20 (f : Fighter) (s : Nat) : Fighter × Nat :=
  let d := f.d20.roll s
  ({ f with d20 := d }, d.rolled)

/-- set_awareness. -/
def set_awareness (f : Fighter) (aw : FighterAwareness) : Fighter :=
  { f with awareness := aw }

/-- update_awareness: the weighted random draw is modelled by the draw
parameter; a transition happens only when the drawn state differs. -/
def update_awareness (f : Fighter) (draw : FighterAwareness) : Fighter :=
  if draw ≠ f.awareness then f.set_awareness draw else f

/-- The Python expression attack in self.attacks; class Attack defines no
__eq__, so the comparison is object identity (aid). -/
def knows (f : Fighter) (atk : Attack) : Bool :=
  f.attacks.any (fun a => a.aid == atk.aid)

/-- learn_attack: append unless already present. -/
def learn_attack (f : Fighter) (atk : Attack) : Fighter :=
  if f.knows atk then f else { f with attacks := f.attacks ++ [atk] }

/-- Fighter.attack: guarded by attack in self.attacks; falls off the end
of the function (None) when the attack was never learned. -/
def attack (f : Fighter) (atk : Attack) (ss : List Nat) :
    Option (Nat × Attack) :=
  if f.knows atk then some (atk.roll_damage ss) else none

/-- Fighter.attack_with_advantage; None when the attack is unknown. -/
def attack_with_advantage (f : Fighter) (atk : Attack) (oid : Nat)
    (ss : List Nat) : Option (Nat × Attack) :=
  if f.knows atk then some (atk.roll_damage_with_advantage oid ss) else none

/-- Fighter.attack_with_disadvantage; None when the attack is unknown. -/
def attack_with_disadvantage (f : Fighter) (atk : Attack) (oid : Nat)
    (ss : List Nat) : Option (Nat × Attack) :=
  if f.knows atk then some (atk.roll_damage_with_disadvantage oid ss) else none

end Fighter

/-! ### BattleMediator (src/src/Arena.py) -/

/-- Runtime errors the arena code can actually raise: IndexError from
random.choice on an empty sequence, and TypeError from subtracting a
None damage from hp. -/
inductive ArenaError
  | emptyChoice
  | noneDamage
deriving DecidableEq

/-- The class attributes of BattleMediator: _battle_in_progress and
_instance (the singleton reference, modelled by its identity). -/
structure BattleClassState where
  battle_in_progress : Bool
  inst : Option Nat
deriving DecidableEq

/-- random.choice(seq) with random index i: IndexError on an empty
sequence, else some element of the list (index reduced modulo the
length). -/
def pyChoice (l : List α) (i : Nat) : Except ArenaError α :=
  match l with
  | [] => .error .emptyChoice
  | x :: xs => .ok ((x :: xs).get ⟨i % (xs.length + 1), Nat.mod_lt _ (Nat.succ_pos _)⟩)

namespace BattleMediator

/-- __new__: return the stored class-level instance, creating it first if
absent.  fresh is the identity a newly allocated object would get. -/
def new (s : BattleClassState) (fresh : Nat) : Nat × BattleClassState :=
  match s.inst with
  | some i => (i, s)
  | none => (fresh, { s with inst := some fresh })

/-- end_battle: clear the class-level flag. -/
def end_battle (s : BattleClassState) : BattleClassState :=
  { s with battle_in_progress := false }

/-- BattleMediator.attack: opposed d20 roll; on a strict win the damage
roll mode follows the attacker's awareness and the damage is subtracted
from the defender's hp; then the termination check runs. -/
def attack (attacker defender : Fighter) (atk : Attack)
    (sAtk sDef oid : Nat) (ss : List Nat) (st : BattleClassState) :
    Except ArenaError (Fighter × Fighter × BattleClassState) :=
  let ar := Fighter.roll_d20 attacker sAtk
  let dr := Fighter.roll_d20 defender sDef
  let attacker := ar.1
  let defender := dr.1
  let defRes : Except ArenaError Fighter :=
    if ar.2 > dr.2 then
      let damage? :=
        match attacker.awareness with
        | .FOCUSED => attacker.attack_with_advantage atk oid ss
        | .DISTRACTED => attacker.attack_with_disadvantage atk oid ss
        | _ => attacker.attack atk ss
      match damage? with
      | none => .error .noneDamage
      | some (damage, _) => .ok { defender with hp := defender.hp - (damage : Int) }
    else .ok defender
  match defRes with
  | .error e => .error e
  | .ok defender =>
    let st := if defender.hp ≤ 0 then end_battle st else st
    .ok (attacker, defender, st)

/-- roll_initiative: both roll a d20; fighter1 leads iff its roll is
strictly greater (both d20 objects mutate). -/
def roll_initiative (f1 f2 : Fighter) (s1 s2 : Nat) : Fighter × Fighter :=
  let r1 := Fighter.roll_d20 f1 s1
  let r2 := Fighter.roll_d20 f2 s2
  if r1.2 > r2.2 then (r1.1, r2.1) else (r2.1, r1.1)

end BattleMediator

/-- The per-turn random draws of the battle loop: the awareness draw, the
random.choice index, the two opposed d20 seeds, the identity of the extra
die an advantage/disadvantage cast would allocate, and the damage-roll
seeds. -/
structure TurnOracle where
  awarenessDraw : FighterAwareness
  choiceIdx : Nat
  sAtk : Nat
  sDef : Nat
  extraOid : Nat
  dmgSeeds : List Nat

namespace BattleMediator

/-- The while-loop of BattleMediator.battle, fuel-indexed (the Python loop
runs until the flag clears; fuel exhaustion returns the state reached).
Each iteration: update the attacker's awareness, pick a random learned
attack (IndexError if the attacker has none), resolve the attack, swap
roles.  An error carries the state at the point of failure. -/
def battleLoop (oracle : Nat → TurnOracle) :
    Nat → Nat → Fighter → Fighter → BattleClassState →
    Except (ArenaError × Fighter × Fighter × BattleClassState)
      (Fighter × Fighter × BattleClassState)
  | 0, _, attacker, defender, st => .ok (attacker, defender, st)
  | fuel + 1, k, attacker, defender, st =>
    if st.battle_in_progress then
      let attacker := attacker.update_awareness (oracle k).awarenessDraw
      match pyChoice attacker.attacks (oracle k).choiceIdx with
      | .error e => .error (e, attacker, defender, st)
      | .ok atk =>
        match BattleMediator.attack attacker defender atk
            (oracle k).sAtk (oracle k).sDef (oracle k).extraOid
            (oracle k).dmgSeeds st with
        | .error e => .error (e, attacker, defender, st)
        | .ok (attacker, defender, st) =>
          battleLoop oracle fuel (k + 1) defender attacker st
    else .ok (attacker, defender, st)

/-- BattleMediator.battle: initiative, then the turn loop. -/
def battle (fuel : Nat) (f1 f2 : Fighter) (s1 s2 : Nat)
    (oracle : Nat → TurnOracle) (st : BattleClassState) :
    Except (ArenaError × Fighter × Fighter × BattleClassState)
      (Fighter × Fighter × BattleClassState) :=
  let fs := roll_initiative f1 f2 s1 s2
  battleLoop oracle fuel 0 fs.1 fs.2 st

/-- start_battle: set the class-level flag, then run battle.  No
validation of the fighters' learned-attack sets happens here. -/
def start_battle (fuel : Nat) (f1 f2 : Fighter) (s1 s2 : Nat)
    (oracle : Nat → TurnOracle) (st : BattleClassState) :
    Except (ArenaError × Fighter × Fighter × BattleClassState)
      (Fighter × Fighter × BattleClassState) :=
  battle fuel f1 f2 s1 s2 oracle { st with battle_in_progress := true }

end BattleMediator

/-! ## Claim theorems -/

/-- C5: a freshly constructed die has rolled = 0; every call to Die.roll
overwrites rolled with 1 + seed % face_count — a value in
[1, face_count] independent of the previous rolled state — and the Python
method returns exactly that stored value, (d.roll s).rolled. -/
theorem die_roll_range (c : DieClass) (oid : Nat) (d : Die) (s : Nat) :
    (Die.fresh c oid).rolled = 0 ∧
    (d.roll s).rolled = 1 + s % d.cls.faceCount ∧
    1 ≤ (d.roll s).rolled ∧ (d.roll s).rolled ≤ d.cls.faceCount := by
  refine ⟨rfl, rfl, Nat.le_add_right 1 _, ?_⟩
  have h := Nat.mod_lt s (DieClass.faceCount_pos d.cls)
  show 1 + s % d.cls.faceCount ≤ d.cls.faceCount
  omega

/-- C8 counterexample: two dice of different kinds with equal rolled
values are NOT equal — the dataclass __eq__ demands identical classes, so
equality is not determined by the rolled value alone across die kinds. -/
theorem cross_kind_equality_cex :
    (Die.mk .six 0 3).rolled = (Die.mk .twenty 1 3).rolled ∧
    Die.pyEq (Die.mk .six 0 3) (Die.mk .twenty 1 3) = false := by
  exact ⟨rfl, rfl⟩

/-- C8 amended: among dice of the same class, equality holds iff the
rolled values are equal and the order is decided solely by rolled (object
identity and face count play no role); between different classes dice are
never equal and order comparisons are unsupported (TypeError). -/
theorem die_ordering_by_rolled (a b : Die) :
    (a.cls = b.cls →
      ((Die.pyEq a b = true ↔ a.rolled = b.rolled) ∧
        Die.pyLt a b = some (decide (a.rolled < b.rolled)))) ∧
    (a.cls ≠ b.cls → Die.pyEq a b = false ∧ Die.pyLt a b = none) := by
  constructor
  · intro h
    simp [Die.pyEq, Die.pyLt, h]
  · intro h
    simp [Die.pyEq, Die.pyLt, h]

/-- Closed instance of die_ordering_by_rolled at two distinct d6 objects
with equal rolled values. -/
theorem die_ordering_by_rolled_witness :
    ((Die.pyEq (Die.mk .six 0 2) (Die.mk .six 1 2) = true ↔
        (Die.mk .six 0 2).rolled = (Die.mk .six 1 2).rolled) ∧
      Die.pyLt (Die.mk .six 0 2) (Die.mk .six 1 2)
        = some (decide ((Die.mk .six 0 2).rolled < (Die.mk .six 1 2).rolled))) :=
  (die_ordering_by_rolled (Die.mk .six 0 2) (Die.mk .six 1 2)).1 rfl

/-- C10: BattleMediator construction is idempotent — once an instance is
stored in the class attribute, every further call to __new__ returns that
identical instance and leaves the class state unchanged — and __new__
never touches the class-level _battle_in_progress flag, which is the
single process-wide in-progress flag all references share. -/
theorem mediator_singleton (s : BattleClassState) (fresh1 fresh2 : Nat) :
    (BattleMediator.new (BattleMediator.new s fresh1).2 fresh2).1
      = (BattleMediator.new s fresh1).1 ∧
    (BattleMediator.new (BattleMediator.new s fresh1).2 fresh2).2
      = (BattleMediator.new s fresh1).2 ∧
    (BattleMediator.new s fresh1).2.battle_in_progress = s.battle_in_progress := by
  cases h : s.inst <;> simp [BattleMediator.new, h]

theorem getD_append_left (l l' : List α) (n : Nat) (d : α) (h : n < l.length) :
    (l ++ l').getD n d = l.getD n d := by
  rw [List.getD_eq_getElem?_getD, List.getD_eq_getElem?_getD,
    List.getElem?_append_left h]

/-- C4: construction seeds a nonempty history; every roll() appends
exactly one new snapshot at the end (so the history never shrinks and
stays nonempty); right after a roll, previous_total returns the total of
what was the last snapshot before the roll; and with a single snapshot,
previous_total fails with the InsufficientHistory condition. -/
theorem roll_history_previous_total (t : DieClass) (c : Nat) (p : Dice)
    (ss : List Nat) :
    (Dice.make t c).roll_history ≠ [] ∧
    (∃ snap, (p.roll ss).roll_history = p.roll_history ++ [snap]) ∧
    (p.roll_history ≠ [] →
      (p.roll ss).previous_total = .ok (diceSum p.current_roll)) ∧
    (p.roll_history.length = 1 →
      p.previous_total = .error .insufficientHistory) := by
  refine ⟨by simp [Dice.make], ⟨_, rfl⟩, ?_, ?_⟩
  · intro h
    have hL : 1 ≤ p.roll_history.length := List.length_pos.mpr h
    have hlen : (p.roll ss).roll_history.length = p.roll_history.length + 1 := by
      simp [Dice.roll]
    unfold Dice.previous_total Dice.previous_roll
    rw [if_pos (by omega)]
    have hidx : (p.roll ss).roll_history.length - 2 = p.roll_history.length - 1 := by
      omega
    rw [hidx]
    show Except.map diceSum (Except.ok ((p.roll_history
      ++ [List.zipWith Die.roll p.dice ss]).getD (p.roll_history.length - 1) []))
        = Except.ok (diceSum p.current_roll)
    rw [getD_append_left _ _ _ _ (by omega)]
    rfl
  · intro h
    unfold Dice.previous_total Dice.previous_roll
    rw [if_neg (by omega)]
    rfl

/-- Closed instance of roll_history_previous_total on a 2d6 pool. -/
theorem roll_history_previous_total_witness :
    ((Dice.make .six 2).roll [0, 3]).previous_total
        = .ok (diceSum (Dice.make .six 2).current_roll) ∧
      (Dice.make .six 2).previous_total = .error .insufficientHistory :=
  ⟨(roll_history_previous_total .six 2 (Dice.make .six 2) [0, 3]).2.2.1 (by decide),
    (roll_history_previous_total .six 2 (Dice.make .six 2) [0, 3]).2.2.2 (by decide)⟩

/-- The total of check_advantage is sum minus minimum, for any roll list
(Python only reaches nonempty lists; on [] both sides are 0). -/
theorem check_advantage_total (vs : List Nat) :
    (Attack.check_advantage vs).sum = vs.sum - listMin vs := by
  cases vs with
  | nil => rfl
  | cons x xs =>
    have h := check_advantage_sum (x :: xs) (by simp)
    omega

/-- The total of check_disadvantage is sum minus maximum. -/
theorem check_disadvantage_total (vs : List Nat) :
    (Attack.check_disadvantage vs).sum = vs.sum - listMax vs := by
  cases vs with
  | nil => rfl
  | cons x xs =>
    have h := check_disadvantage_sum (x :: xs) (by simp)
    omega

/-- get_roll_total after remove_lowest_roll: sum minus minimum. -/
theorem remove_lowest_roll_total (ds : List Die) :
    RollManager.get_roll_total (RollManager.remove_lowest_roll ds)
      = (ds.map Die.rolled).sum - listMin (ds.map Die.rolled) := by
  cases ds with
  | nil => rfl
  | cons d ds' =>
    have h := remove_lowest_roll_sum (d :: ds') (by simp)
    simp only [RollManager.get_roll_total]
    omega

/-- get_roll_total after remove_highest_roll: sum minus maximum. -/
theorem remove_highest_roll_total (ds : List Die) :
    RollManager.get_roll_total (RollManager.remove_highest_roll ds)
      = (ds.map Die.rolled).sum - listMax (ds.map Die.rolled) := by
  cases ds with
  | nil => rfl
  | cons d ds' =>
    have h := remove_highest_roll_sum (d :: ds') (by simp)
    simp only [RollManager.get_roll_total]
    omega

/-- C1: on the k+1 values rolled in a single cast, the advantage total
(both the Attack.roll_damage_with_advantage path and the
RollManager.roll_with_advantage path) equals their sum minus their
minimum, and the disadvantage total equals their sum minus their maximum;
on ties, list.remove drops the FIRST value (in iteration order) matching
the extreme, i.e. the entry at the first matching index is erased. -/
theorem advantage_total_sum_minus_min (a : Attack) (oid : Nat)
    (ss : List Nat) (ds : List Die) (rolls : List Nat) :
    (let vs := (List.zipWith Die.roll (a.dice_with_extra_die oid) ss).map Die.rolled
     (a.roll_damage_with_advantage oid ss).1 = vs.sum - listMin vs ∧
     (a.roll_damage_with_disadvantage oid ss).1 = vs.sum - listMax vs) ∧
    (let ws := (RollManager.roll_dice (RollManager.add_die_to_roll ds oid) ss).map Die.rolled
     RollManager.roll_with_advantage ds oid ss = ws.sum - listMin ws ∧
     RollManager.roll_with_disadvantage ds oid ss = ws.sum - listMax ws) ∧
    (Attack.check_advantage rolls
        = rolls.eraseIdx (rolls.findIdx (fun x => x == listMin rolls)) ∧
      Attack.check_disadvantage rolls
        = rolls.eraseIdx (rolls.findIdx (fun x => x == listMax rolls))) := by
  refine ⟨⟨?_, ?_⟩, ⟨?_, ?_⟩, ?_, ?_⟩
  · exact check_advantage_total _
  · exact check_disadvantage_total _
  · exact remove_lowest_roll_total _
  · exact remove_highest_roll_total _
  · exact pyRemove_eq_eraseIdx _ rolls
  · exact pyRemove_eq_eraseIdx _ rolls

/-! ### C3: casts never change the attack's pool membership -/

/-- The three ways a cast of an attack can be rolled. -/
inductive CastMode
  | plain | adv | dis
deriving DecidableEq

/-- One cast of an attack: the mode, the identity the freshly constructed
extra die would get, and the roll seeds. -/
structure CastSpec where
  mode : CastMode
  oid : Nat
  ss : List Nat
deriving DecidableEq

/-- The state effect of one cast on the attack (the returned damage total
is dropped). -/
def Attack.castStep (a : Attack) (c : CastSpec) : Attack :=
  match c.mode with
  | .plain => (a.roll_damage c.ss).2
  | .adv => (a.roll_damage_with_advantage c.oid c.ss).2
  | .dis => (a.roll_damage_with_disadvantage c.oid c.ss).2

/-- Python draws one random per die, so a cast of a k-die attack consumes
k seeds (plain) or k+1 seeds (advantage/disadvantage). -/
def seedsOk (k : Nat) (c : CastSpec) : Bool :=
  match c.mode with
  | .plain => c.ss.length == k
  | _ => c.ss.length == k + 1

theorem map_oid_zipWith_roll (l : List Die) (ss : List Nat)
    (h : l.length ≤ ss.length) :
    (List.zipWith Die.roll l ss).map Die.oid = l.map Die.oid := by
  induction l generalizing ss with
  | nil => simp
  | cons d l ih =>
    cases ss with
    | nil => simp at h
    | cons s ss =>
      simp only [List.length_cons, Nat.add_le_add_iff_right] at h
      simp [List.zipWith, Die.roll, ih ss h]

theorem zipWith_append_singleton_take (f : Die → Nat → Die) (l : List Die)
    (x : Die) (ss : List Nat) :
    (List.zipWith f (l ++ [x]) ss).take l.length
      = List.zipWith f l (ss.take l.length) := by
  induction l generalizing ss with
  | nil => simp
  | cons d l ih =>
    cases ss with
    | nil => simp
    | cons s ss => simp [List.zipWith, ih ss]

/-- One well-seeded cast leaves the attack's pool membership — the
identities of its dice, in order — untouched. -/
theorem castStep_map_oid (a : Attack) (c : CastSpec)
    (h : seedsOk a.dice.length c = true) :
    (a.castStep c).dice.map Die.oid = a.dice.map Die.oid := by
  cases hm : c.mode with
  | plain =>
    simp only [seedsOk, hm, beq_iff_eq] at h
    simp only [Attack.castStep, hm, Attack.roll_damage]
    exact map_oid_zipWith_roll a.dice c.ss (le_of_eq h.symm)
  | adv =>
    simp only [seedsOk, hm, beq_iff_eq] at h
    simp only [Attack.castStep, hm, Attack.roll_damage_with_advantage,
      Attack.dice_with_extra_die]
    rw [zipWith_append_singleton_take]
    exact map_oid_zipWith_roll a.dice (c.ss.take a.dice.length)
      (by simp [h])
  | dis =>
    simp only [seedsOk, hm, beq_iff_eq] at h
    simp only [Attack.castStep, hm, Attack.roll_damage_with_disadvantage,
      Attack.dice_with_extra_die]
    rw [zipWith_append_singleton_take]
    exact map_oid_zipWith_roll a.dice (c.ss.take a.dice.length)
      (by simp [h])

/-- C3: the advantage/disadvantage procedures work on a transient copy of
the attack's dice list: across ANY sequence of well-seeded casts (plain,
with advantage, or with disadvantage), the attack's pool keeps exactly its
original dice (same identities, same order, hence the same size — it
never grows), and any identity not in the original pool — in particular
each cast's freshly allocated extra die — is not a member of the pool
afterwards. -/
theorem attack_pool_frame (a : Attack) (casts : List CastSpec)
    (h : ∀ c ∈ casts, seedsOk a.dice.length c = true) :
    (casts.foldl Attack.castStep a).dice.map Die.oid = a.dice.map Die.oid ∧
    (casts.foldl Attack.castStep a).dice.length = a.dice.length ∧
    ∀ x, x ∉ a.dice.map Die.oid →
      x ∉ (casts.foldl Attack.castStep a).dice.map Die.oid := by
  have main : ∀ (cs : List CastSpec) (b : Attack),
      (∀ c ∈ cs, seedsOk b.dice.length c = true) →
      (cs.foldl Attack.castStep b).dice.map Die.oid = b.dice.map Die.oid := by
    intro cs
    induction cs with
    | nil => intro b _; rfl
    | cons c cs ih =>
      intro b hb
      have hc : seedsOk b.dice.length c = true := hb c (List.mem_cons_self c cs)
      have hstep := castStep_map_oid b c hc
      have hlen : (b.castStep c).dice.length = b.dice.length := by
        have := congrArg List.length hstep
        simpa using this
      simp only [List.foldl_cons]
      rw [ih (b.castStep c) (fun c' hc' => by rw [hlen]; exact hb c' (List.mem_cons_of_mem c hc')), hstep]
  have hmap := main casts a h
  refine ⟨hmap, ?_, ?_⟩
  · have := congrArg List.length hmap
    simpa using this
  · intro x hx
    rw [hmap]
    exact hx

/-- Closed instance of attack_pool_frame: a 2d6 attack cast three times
(advantage, plain, disadvantage) keeps exactly its two original dice, and
the extra dice (identities 90, 91) are gone afterwards. -/
theorem attack_pool_frame_witness :
    (([⟨CastMode.adv, 90, [0, 1, 2]⟩, ⟨CastMode.plain, 0, [3, 4]⟩,
        ⟨CastMode.dis, 91, [5, 6, 7]⟩] : List CastSpec).foldl Attack.castStep
        (Attack.mk 0 "Thunderclap" [Die.fresh .six 10, Die.fresh .six 11])).dice.map Die.oid
      = (Attack.mk 0 "Thunderclap" [Die.fresh .six 10, Die.fresh .six 11]).dice.map Die.oid ∧
    (90 : Nat) ∉ (([⟨CastMode.adv, 90, [0, 1, 2]⟩, ⟨CastMode.plain, 0, [3, 4]⟩,
        ⟨CastMode.dis, 91, [5, 6, 7]⟩] : List CastSpec).foldl Attack.castStep
        (Attack.mk 0 "Thunderclap" [Die.fresh .six 10, Die.fresh .six 11])).dice.map Die.oid :=
  ⟨(attack_pool_frame (Attack.mk 0 "Thunderclap" [Die.fresh .six 10, Die.fresh .six 11])
      [⟨CastMode.adv, 90, [0, 1, 2]⟩, ⟨CastMode.plain, 0, [3, 4]⟩, ⟨CastMode.dis, 91, [5, 6, 7]⟩]
      (by decide)).1,
    (attack_pool_frame (Attack.mk 0 "Thunderclap" [Die.fresh .six 10, Die.fresh .six 11])
      [⟨CastMode.adv, 90, [0, 1, 2]⟩, ⟨CastMode.plain, 0, [3, 4]⟩, ⟨CastMode.dis, 91, [5, 6, 7]⟩]
      (by decide)).2.2 90 (by decide)⟩

/-- C2: in BattleMediator.attack with a learned attack, the attacker hits
iff its d20 roll is strictly greater than the defender's (equal rolls
miss); on a miss the defender's hp is unchanged; on a hit the damage roll
mode follows the attacker's awareness — FOCUSED with advantage,
DISTRACTED with disadvantage, otherwise (PRESENT) plain — and the
resulting total is subtracted from the defender's hp. -/
theorem mediator_attack_hit_resolution
    (attacker defender : Fighter) (atk : Attack) (sAtk sDef oid : Nat)
    (ss : List Nat) (st : BattleClassState)
    (hknows : attacker.knows atk = true) :
    (BattleMediator.attack attacker defender atk sAtk sDef oid ss st).toOption.map
        (fun r => r.2.1.hp)
      = some
        (if (attacker.d20.roll sAtk).rolled > (defender.d20.roll sDef).rolled then
          defender.hp -
            (((if attacker.awareness = .FOCUSED then
                (atk.roll_damage_with_advantage oid ss).1
              else if attacker.awareness = .DISTRACTED then
                (atk.roll_damage_with_disadvantage oid ss).1
              else (atk.roll_damage ss).1) : Nat) : Int)
        else defender.hp) := by
  simp only [Fighter.knows] at hknows
  by_cases hcmp : (attacker.d20.roll sAtk).rolled > (defender.d20.roll sDef).rolled
  · cases haw : attacker.awareness
    · simp [BattleMediator.attack, Fighter.roll_d20, Fighter.attack_with_advantage,
        Fighter.knows, haw, hcmp, hknows, Except.toOption]
    · simp [BattleMediator.attack, Fighter.roll_d20, Fighter.attack,
        Fighter.knows, haw, hcmp, hknows, Except.toOption]
    · simp [BattleMediator.attack, Fighter.roll_d20, Fighter.attack_with_disadvantage,
        Fighter.knows, haw, hcmp, hknows, Except.toOption]
  · simp [BattleMediator.attack, Fighter.roll_d20, hcmp, Except.toOption]

/-- Closed instance of mediator_attack_hit_resolution: a PRESENT attacker
whose d20 seed yields 6 against the defender's 1 hits and deals the plain
1d6 damage (2), leaving the defender at 98 hp. -/
theorem mediator_attack_hit_resolution_witness :
    (BattleMediator.attack
        (Fighter.mk "Chrulk" 100 [Attack.mk 1 "AcidSplash" [Die.fresh .six 0]]
          (Die.fresh .twenty 2) .PRESENT 0 0 0)
        (Fighter.mk "Steve" 100 [] (Die.fresh .twenty 3) .PRESENT 0 0 0)
        (Attack.mk 1 "AcidSplash" [Die.fresh .six 0]) 5 0 9 [1, 2]
        ⟨true, none⟩).toOption.map (fun r => r.2.1.hp) = some 98 := by
  rw [mediator_attack_hit_resolution _ _ _ _ _ _ _ _ (by decide)]
  decide

/-- C7 counterexample: asking a fighter to use an attack it never learned
does NOT surface any UnknownAttack condition — all three Fighter attack
methods silently fall off the end and produce the absent result None. -/
theorem unknown_attack_returns_none_cex :
    Fighter.attack
        (Fighter.mk "Chrulk" 100 [Attack.mk 1 "AcidSplash" [Die.fresh .six 0]]
          (Die.fresh .twenty 2) .PRESENT 0 0 0)
        (Attack.mk 2 "Fireball" [Die.fresh .six 5]) [0] = none ∧
    Fighter.attack_with_advantage
        (Fighter.mk "Chrulk" 100 [Attack.mk 1 "AcidSplash" [Die.fresh .six 0]]
          (Die.fresh .twenty 2) .PRESENT 0 0 0)
        (Attack.mk 2 "Fireball" [Die.fresh .six 5]) 9 [0, 1] = none ∧
    Fighter.attack_with_disadvantage
        (Fighter.mk "Chrulk" 100 [Attack.mk 1 "AcidSplash" [Die.fresh .six 0]]
          (Die.fresh .twenty 2) .PRESENT 0 0 0)
        (Attack.mk 2 "Fireball" [Die.fresh .six 5]) 9 [0, 1] = none := by
  refine ⟨?_, ?_, ?_⟩ <;> decide

/-- C7 amended: when the attack is not in the fighter's learned list the
three attack methods return None — an absent result, with no error
condition raised; when the attack is learned they return the matching
Attack damage procedure's result. -/
theorem fighter_attack_membership (f : Fighter) (atk : Attack) (oid : Nat)
    (ss : List Nat) :
    (f.knows atk = false →
      f.attack atk ss = none ∧
      f.attack_with_advantage atk oid ss = none ∧
      f.attack_with_disadvantage atk oid ss = none) ∧
    (f.knows atk = true →
      f.attack atk ss = some (atk.roll_damage ss) ∧
      f.attack_with_advantage atk oid ss
        = some (atk.roll_damage_with_advantage oid ss) ∧
      f.attack_with_disadvantage atk oid ss
        = some (atk.roll_damage_with_disadvantage oid ss)) := by
  constructor <;> intro h <;>
    simp [Fighter.attack, Fighter.attack_with_advantage,
      Fighter.attack_with_disadvantage, h]

/-- Closed instance of fighter_attack_membership at a learned attack. -/
theorem fighter_attack_membership_witness :
    Fighter.attack
        (Fighter.mk "Chrulk" 100 [Attack.mk 1 "AcidSplash" [Die.fresh .six 0]]
          (Die.fresh .twenty 2) .PRESENT 0 0 0)
        (Attack.mk 1 "AcidSplash" [Die.fresh .six 0]) [4, 5]
      = some ((Attack.mk 1 "AcidSplash" [Die.fresh .six 0]).roll_damage [4, 5]) ∧
    Fighter.attack_with_advantage
        (Fighter.mk "Chrulk" 100 [Attack.mk 1 "AcidSplash" [Die.fresh .six 0]]
          (Die.fresh .twenty 2) .PRESENT 0 0 0)
        (Attack.mk 1 "AcidSplash" [Die.fresh .six 0]) 9 [4, 5]
      = some ((Attack.mk 1 "AcidSplash" [Die.fresh .six 0]).roll_damage_with_advantage 9 [4, 5]) ∧
    Fighter.attack_with_disadvantage
        (Fighter.mk "Chrulk" 100 [Attack.mk 1 "AcidSplash" [Die.fresh .six 0]]
          (Die.fresh .twenty 2) .PRESENT 0 0 0)
        (Attack.mk 1 "AcidSplash" [Die.fresh .six 0]) 9 [4, 5]
      = some ((Attack.mk 1 "AcidSplash" [Die.fresh .six 0]).roll_damage_with_disadvantage 9 [4, 5]) :=
  (fighter_attack_membership
      (Fighter.mk "Chrulk" 100 [Attack.mk 1 "AcidSplash" [Die.fresh .six 0]]
        (Die.fresh .twenty 2) .PRESENT 0 0 0)
      (Attack.mk 1 "AcidSplash" [Die.fresh .six 0]) 9 [4, 5]).2 (by decide)

theorem update_awareness_attacks (f : Fighter) (w : FighterAwareness) :
    (f.update_awareness w).attacks = f.attacks := by
  unfold Fighter.update_awareness Fighter.set_awareness
  split <;> rfl

/-- A loop turn whose attacker has no learned attacks dies inside the loop
at attack selection (IndexError from random.choice on an empty sequence),
with the battle flag still set and the attacker's awareness already
updated for the turn. -/
theorem battleLoop_empty_attacks (oracle : Nat → TurnOracle) (n k : Nat)
    (attacker defender : Fighter) (io : Option Nat)
    (ha : attacker.attacks = []) :
    BattleMediator.battleLoop oracle (n + 1) k attacker defender ⟨true, io⟩
      = .error (.emptyChoice,
          attacker.update_awareness (oracle k).awarenessDraw, defender,
          ⟨true, io⟩) ∧
    (attacker.update_awareness (oracle k).awarenessDraw).attacks = [] := by
  have hA : (attacker.update_awareness (oracle k).awarenessDraw).attacks = [] := by
    rw [update_awareness_attacks]; exact ha
  constructor
  · simp only [BattleMediator.battleLoop]
    rw [if_pos trivial, hA]
    rfl
  · exact hA

/-- C6 counterexample: two freshly constructed fighters (no learned
attacks) are fed to start_battle; the call does NOT fail with a
NoAttacksAvailable validation before the turn loop — the flag is set, the
turn loop begins (the first attacker's awareness draw has already been
applied), and the failure is the IndexError of attack selection inside
the loop. -/
theorem start_battle_no_validation_cex :
    ∃ a d s,
      BattleMediator.start_battle 3 (Fighter.make "Chrulk" 100 0 1 1)
          (Fighter.make "Steve" 100 1 1 1) 5 0
          (fun _ => TurnOracle.mk .FOCUSED 0 0 0 99 []) ⟨false, none⟩
        = .error (.emptyChoice, a, d, s) ∧
      s.battle_in_progress = true ∧ a.awareness = .FOCUSED ∧ a.attacks = [] := by
  exact ⟨_, _, _, rfl, rfl, rfl, rfl⟩

/-- C6 amended: start_battle performs NO learned-attack validation.  It
sets the in-progress flag and enters the turn loop; with fighters whose
learned-attack sets are empty, the failure surfaces mid-loop during
attack selection (IndexError from random.choice on the empty list), with
the battle already flagged in progress — no NoAttacksAvailable condition
exists in the code. -/
theorem empty_attacks_fail_mid_loop (f1 f2 : Fighter) (fuel s1 s2 : Nat)
    (oracle : Nat → TurnOracle) (st : BattleClassState)
    (h1 : f1.attacks = []) (h2 : f2.attacks = []) (hfuel : 1 ≤ fuel) :
    ∃ a d, BattleMediator.start_battle fuel f1 f2 s1 s2 oracle st
        = .error (.emptyChoice, a, d, ⟨true, st.inst⟩) ∧ a.attacks = [] := by
  obtain ⟨n, rfl⟩ : ∃ n, fuel = n + 1 := ⟨fuel - 1, by omega⟩
  simp only [BattleMediator.start_battle, BattleMediator.battle,
    BattleMediator.roll_initiative]
  by_cases hcmp : (Fighter.roll_d20 f1 s1).2 > (Fighter.roll_d20 f2 s2).2
  · rw [if_pos hcmp]
    have h := battleLoop_empty_attacks oracle n 0
      (Fighter.roll_d20 f1 s1).1 (Fighter.roll_d20 f2 s2).1 st.inst h1
    exact ⟨_, _, h.1, h.2⟩
  · rw [if_neg hcmp]
    have h := battleLoop_empty_attacks oracle n 0
      (Fighter.roll_d20 f2 s2).1 (Fighter.roll_d20 f1 s1).1 st.inst h2
    exact ⟨_, _, h.1, h.2⟩

/-- Closed instance of empty_attacks_fail_mid_loop. -/
theorem empty_attacks_fail_mid_loop_witness :
    ∃ a d, BattleMediator.start_battle 2 (Fighter.make "Chrulk" 100 0 1 1)
        (Fighter.make "Steve" 100 1 1 1) 5 0
        (fun _ => TurnOracle.mk .DISTRACTED 0 0 0 99 []) ⟨false, none⟩
      = .error (.emptyChoice, a, d, ⟨true, none⟩) ∧ a.attacks = [] :=
  empty_attacks_fail_mid_loop (Fighter.make "Chrulk" 100 0 1 1)
    (Fighter.make "Steve" 100 1 1 1) 2 5 0
    (fun _ => TurnOracle.mk .DISTRACTED 0 0 0 99 []) ⟨false, none⟩
    rfl rfl (by decide)

set_option maxRecDepth 40000 in
/-- C9 counterexample: with draws distracted = 0.1 and focused = 0.2, the
three stored double weights of a freshly constructed fighter sum to
1 - 2^-55, NOT exactly 1.0: the binary64 values of 0.1, 0.2 and of
1.0 - (0.1 + 0.2) do not add up to 1 exactly. -/
theorem weights_sum_not_one_cex :
    (Fighter.make "Chrulk" 100 0 1 2).focused_chance
        + (Fighter.make "Chrulk" 100 0 1 2).present_chance
        + (Fighter.make "Chrulk" 100 0 1 2).distracted_chance ≠ 1 := by
  with_unfolding_all decide

set_option maxRecDepth 40000 in
/-- C9 amended: for every draw pair in {1,2,3} x {1,2,3} the three
transition weights of a constructed fighter are non-negative, the
distracted and focused weights are the doubles nearest k/10 for the
drawn k, the present weight is the computed remainder 1.0 - (distracted
+ focused) in double arithmetic, and the three weights sum to 1.0 only
up to floating-point rounding: the sum lies within 2^-52 of 1 (and for
some draws, e.g. 0.1 and 0.2, it is strictly below 1). -/
theorem weights_nonneg_sum_near_one (dd fd : Nat)
    (hd1 : 1 ≤ dd) (hd3 : dd ≤ 3) (hf1 : 1 ≤ fd) (hf3 : fd ≤ 3)
    (name : String) (hp : Int) (oid : Nat) :
    0 ≤ (Fighter.make name hp oid dd fd).focused_chance ∧
    0 ≤ (Fighter.make name hp oid dd fd).present_chance ∧
    0 ≤ (Fighter.make name hp oid dd fd).distracted_chance ∧
    (Fighter.make name hp oid dd fd).distracted_chance = fl ((dd : ℚ) / 10) ∧
    (Fighter.make name hp oid dd fd).focused_chance = fl ((fd : ℚ) / 10) ∧
    (Fighter.make name hp oid dd fd).present_chance
      = fl (1 - fl (fl ((dd : ℚ) / 10) + fl ((fd : ℚ) / 10))) ∧
    |(Fighter.make name hp oid dd fd).focused_chance
        + (Fighter.make name hp oid dd fd).present_chance
        + (Fighter.make name hp oid dd fd).distracted_chance - 1|
      ≤ 1 / 2 ^ 52 := by
  simp only [Fighter.make]
  interval_cases dd <;> interval_cases fd <;>
    exact ⟨by with_unfolding_all decide, by with_unfolding_all decide,
      by with_unfolding_all decide, trivial, trivial, trivial,
      by with_unfolding_all decide⟩

/-- Closed instance of weights_nonneg_sum_near_one at draws 0.3, 0.3. -/
theorem weights_nonneg_sum_near_one_witness :
    0 ≤ (Fighter.make "Steve" 100 0 3 3).focused_chance ∧
    0 ≤ (Fighter.make "Steve" 100 0 3 3).present_chance ∧
    0 ≤ (Fighter.make "Steve" 100 0 3 3).distracted_chance ∧
    (Fighter.make "Steve" 100 0 3 3).distracted_chance = fl ((3 : ℚ) / 10) ∧
    (Fighter.make "Steve" 100 0 3 3).focused_chance = fl ((3 : ℚ) / 10) ∧
    (Fighter.make "Steve" 100 0 3 3).present_chance
      = fl (1 - fl (fl ((3 : ℚ) / 10) + fl ((3 : ℚ) / 10))) ∧
    |(Fighter.make "Steve" 100 0 3 3).focused_chance
        + (Fighter.make "Steve" 100 0 3 3).present_chance
        + (Fighter.make "Steve" 100 0 3 3).distracted_chance - 1|
      ≤ 1 / 2 ^ 52 :=
  weights_nonneg_sum_near_one 3 3 (by decide) (by decide) (by decide) (by decide)
    "Steve" 100 0

end DnD
